import Mathlib

/-!
# Verification of the exfat-tools fsck core

Shallow embedding of the checker's core algorithms (src/fsck/create.c,
src/fsck/exfat_fs.c, src/fsck/lookup.c, src/fsck/fsck.c) and proofs of the
spec's claims about them.

Machine integers are modelled as `Nat` with explicit `% 2^w` where the C code
can overflow.  Device I/O is modelled as explicit state (functions from
offsets/cluster indices to values); reads and writes succeed unless noted.
The on-disk dentry layout (`struct exfat_dentry` of `exfat_ondisk.h`, which is
not part of the sources) is modelled from the spec: a dentry is a 32-byte
little-endian record, the primary's checksum lives in bytes 2..3, a name
dentry holds 15 UTF-16 code units.
-/

namespace ExfatTools

/-- `EXFAT_FIRST_CLUSTER` -/
def EXFAT_FIRST_CLUSTER : Nat := 2

/-- `EXFAT_FREE_CLUSTER` (FAT value 0) -/
def EXFAT_FREE_CLUSTER : Nat := 0

/-- `EXFAT_EOF_CLUSTER` (FAT value 0xFFFFFFFF) -/
def EXFAT_EOF_CLUSTER : Nat := 4294967295

/-- `DENTRY_SIZE`: a directory entry is 32 bytes. -/
def DENTRY_SIZE : Nat := 32

/-- `ENTRY_NAME_MAX`: a name dentry holds 15 UTF-16 code units. -/
def ENTRY_NAME_MAX : Nat := 15

/-- `MIN_FILE_DENTRIES`: file + stream + at least one name dentry. -/
def MIN_FILE_DENTRIES : Nat := 3

/-- `DIV_ROUND_UP(n, d) = (n + d - 1) / d` -/
def DIV_ROUND_UP (n d : Nat) : Nat := (n + d - 1) / d

/-- `stdio`'s `EOF` sentinel, reused by the lookup engine for offsets. -/
def CEOF : Int := -1

/-! ## Bytes and little-endian encoders -/

/-- Read byte `i` of a byte buffer (buffers in C always have the accessed
byte; out-of-range reads default to 0 and never occur at the call sites the
claims exercise). -/
def byteAt (l : List Nat) (i : Nat) : Nat := l.getD i 0

/-- little-endian 16-bit encoding -/
def le16Bytes (v : Nat) : List Nat := [v % 256, v / 256 % 256]

/-- little-endian 32-bit encoding -/
def le32Bytes (v : Nat) : List Nat :=
  [v % 256, v / 256 % 256, v / 65536 % 256, v / 16777216 % 256]

/-- little-endian 64-bit encoding -/
def le64Bytes (v : Nat) : List Nat :=
  le32Bytes (v % 4294967296) ++ le32Bytes (v / 4294967296 % 4294967296)

/-! ## The rotate-and-add checksum (create.c) -/

/-- One step of the 16-bit checksum:
`chk = ((chk << 15) | (chk >> 1)) + byte` on `uint16_t`.
`(chk << 15)` keeps only the low bit (shifted to bit 15), `(chk >> 1)` is the
rest; the two parts are disjoint so `|` is `+`; the final add wraps mod 2^16. -/
def chkStep (chk b : Nat) : Nat := (chk % 2 * 32768 + chk / 2 + b) % 65536

/-- Fold `chkStep` over a byte list. -/
def chkFold (bs : List Nat) (c : Nat) : Nat := bs.foldl chkStep c

/-- A dentry as exactly its 32 bytes (C reads `bytes[0] .. bytes[31]`;
shorter model lists read as zero). -/
def pad32 (d : List Nat) : List Nat :=
  d.take DENTRY_SIZE ++ List.replicate (DENTRY_SIZE - d.length) 0

/-- `exfat_calc_dentry_checksum` (create.c:19): process bytes 0 and 1, then
bytes `(primary ? 4 : 2) .. 31`. -/
def exfat_calc_dentry_checksum (d : List Nat) (checksum : Nat) (primary : Bool) : Nat :=
  chkFold ((pad32 d).drop (if primary then 4 else 2))
    (chkStep (chkStep checksum (byteAt d 0)) (byteAt d 1))

/-- `calc_dentry_set_checksum` (create.c:35): 0 for sets smaller than
`MIN_FILE_DENTRIES`, else primary with skip, then each secondary. -/
def calc_dentry_set_checksum (dset : List (List Nat)) (dcount : Nat) : Nat :=
  if dcount < MIN_FILE_DENTRIES then 0
  else
    (List.range' 1 (dcount - 1)).foldl
      (fun c i => exfat_calc_dentry_checksum (dset.getD i []) c false)
      (exfat_calc_dentry_checksum (dset.getD 0 []) 0 true)

/-! Spec-side rendering of the checksum claim (C1): a single fold from 0 over
the byte stream "all 32 bytes of the primary except bytes 2 and 3, then all
32 bytes of each secondary in order". -/

/-- Bytes of the primary in checksum order: indices 0,1 then 4..31. -/
def primaryChkBytes (d : List Nat) : List Nat :=
  (pad32 d).take 2 ++ (pad32 d).drop 4

/-- The C1 byte stream of a whole set of `dcount` entries. -/
def setChkStream (dset : List (List Nat)) (dcount : Nat) : List Nat :=
  primaryChkBytes (dset.getD 0 []) ++
    (((List.range' 1 (dcount - 1)).map (fun i => pad32 (dset.getD i []))).flatten)

lemma pad32_length (d : List Nat) : (pad32 d).length = DENTRY_SIZE := by
  simp only [pad32, List.length_append, List.length_take, List.length_replicate]
  omega

lemma take_two_of_pad32 (d : List Nat) :
    (pad32 d).take 2 = [byteAt d 0, byteAt d 1] := by
  match d with
  | [] => rfl
  | [x] => rfl
  | x :: y :: t =>
    simp [pad32, byteAt, DENTRY_SIZE, List.take_succ_cons, List.getD]

/-! ## Dentry records and their on-disk bytes

Field-level model of `struct exfat_dentry`'s variants used by the builder.
The byte layout (offsets of each little-endian field inside the 32 bytes) is
modelled from the spec, `exfat_ondisk.h` not being among the sources. -/

/-- File (primary) dentry fields, in declaration order.  Zero defaults model
the `calloc`ed buffer. -/
structure FileDe where
  num_ext : Nat := 0
  checksum : Nat := 0
  attr : Nat := 0
  create_time : Nat := 0
  create_date : Nat := 0
  modify_time : Nat := 0
  modify_date : Nat := 0
  access_time : Nat := 0
  access_date : Nat := 0
  create_time_ms : Nat := 0
  modify_time_ms : Nat := 0
  create_tz : Nat := 0
  modify_tz : Nat := 0
  access_tz : Nat := 0
  deriving DecidableEq, Repr

/-- Stream (first secondary) dentry fields. -/
structure StreamDe where
  flags : Nat := 0
  name_len : Nat := 0
  name_hash : Nat := 0
  valid_size : Nat := 0
  start_clu : Nat := 0
  size : Nat := 0
  deriving DecidableEq, Repr

/-- A dentry: one of the variants the builder produces, or raw bytes. -/
inductive Dentry where
  | file (f : FileDe)
  | stream (s : StreamDe)
  | name (units : List Nat)
  | raw (bytes : List Nat)
  deriving DecidableEq, Repr

/-- Serialize a dentry to its 32 on-disk bytes (little-endian fields). -/
def dentryBytes : Dentry → List Nat
  | .file f =>
      [133, f.num_ext % 256] ++ le16Bytes f.checksum ++ le16Bytes f.attr ++ [0, 0] ++
      le16Bytes f.create_time ++ le16Bytes f.create_date ++
      le16Bytes f.modify_time ++ le16Bytes f.modify_date ++
      le16Bytes f.access_time ++ le16Bytes f.access_date ++
      [f.create_time_ms % 256, f.modify_time_ms % 256,
       f.create_tz % 256, f.modify_tz % 256, f.access_tz % 256, 0, 0, 0, 0, 0, 0, 0]
  | .stream s =>
      [192, s.flags % 256, 0, s.name_len % 256] ++ le16Bytes s.name_hash ++ [0, 0] ++
      le64Bytes s.valid_size ++ [0, 0, 0, 0] ++ le32Bytes s.start_clu ++ le64Bytes s.size
  | .name u =>
      [193, 0] ++ ((List.range ENTRY_NAME_MAX).map (fun j => le16Bytes (u.getD j 0))).flatten
  | .raw b => pad32 b

/-- The type byte of a dentry (`dentry->type`). -/
def dentryType (d : Dentry) : Nat := byteAt (dentryBytes d) 0

/-! ## Name hash, timestamps, builder and updater (create.c) -/

/-- `exfat_calc_name_hash` (create.c:50): fold over the upcased code units,
low byte then high byte. -/
def exfat_calc_name_hash (upcase : Nat → Nat) (name : Nat → Nat) (len : Nat) : Nat :=
  (List.range len).foldl
    (fun c i =>
      let ch := upcase (name i % 65536) % 65536
      chkStep (chkStep c (ch % 256)) (ch / 256)) 0

/-- Broken-down UTC time, as `struct tm` fields (`gmtime_r` output). -/
structure Tm where
  tm_year : Nat := 0
  tm_mon : Nat := 0
  tm_mday : Nat := 0
  tm_hour : Nat := 0
  tm_min : Nat := 0
  tm_sec : Nat := 0
  deriving DecidableEq, Repr

/-- `unix_time_to_exfat_time`'s date word (create.c:74), truncated to u16. -/
def exfat_date_of (t : Tm) : Nat :=
  ((((t.tm_year - 80) <<< 9) ||| ((t.tm_mon + 1) <<< 5)) ||| t.tm_mday) % 65536

/-- `unix_time_to_exfat_time`'s time word (create.c:75), truncated to u16. -/
def exfat_time_of (t : Tm) : Nat :=
  (((t.tm_hour <<< 11) ||| (t.tm_min <<< 5)) ||| (t.tm_sec >>> 1)) % 65536

/-- `unix_time_to_exfat_time`'s 10-ms field (create.c:81). -/
def exfat_time_ms_of (t : Tm) : Nat := t.tm_sec % 2 * 100

/-- The 15 code units written into name dentry number `i` (`i ≥ 2`) by the
`memcpy` at create.c:135 (and identically at create.c:178): the copy source is
`utf16_name + (i-2) * ENTRY_NAME_MAX * 2`, pointer arithmetic on `__le16 *`,
i.e. an element offset of `30·(i-2)`, not a byte offset.  `u16At` reads the
zero-filled encoded buffer. -/
def nameDentryUnits (u16At : Nat → Nat) (i : Nat) : List Nat :=
  (List.range ENTRY_NAME_MAX).map (fun j => u16At ((i - 2) * (ENTRY_NAME_MAX * 2) + j))

/-- Code unit `i` of the `memset`-zeroed, then encoded, `utf16_name` buffer. -/
def u16buf (units : List Nat) : Nat → Nat := fun i => units.getD i 0 % 65536

/-- Apply `f` to the stream dentry at index 1 (the in-place
`dset[1].dentry.stream.* = ...` writes).  If index 1 is not a stream dentry
the C code would reinterpret its raw bytes; that case is not modelled (no
caller reaches it: built and validated sets have the stream at index 1). -/
def modStream (dset : List Dentry) (f : StreamDe → StreamDe) : List Dentry :=
  match dset.getD 1 (.raw []) with
  | .stream s => dset.set 1 (.stream (f s))
  | _ => dset

/-- Store `chk` in the primary's checksum field (index 0), i.e. the
`dset[0].dentry.file.checksum = cpu_to_le16(...)` write. -/
def setPrimaryChecksum (dset : List Dentry) (chk : Nat) : List Dentry :=
  match dset.getD 0 (.raw []) with
  | .file f => dset.set 0 (.file { f with checksum := chk })
  | _ => dset

/-- `exfat_build_file_dentry_set` (create.c:84).  The UTF-16 encoding is
external (out of scope per the spec), so the name is taken as its encoded
code-unit list; `time(NULL)`/`gmtime_r` are external, so the wall-clock time
arrives as a `Tm`.  Returns `(dentry_set, dentry_count)`. -/
def exfat_build_file_dentry_set (upcase : Nat → Nat) (units : List Nat)
    (attr : Nat) (t : Tm) : List Dentry × Nat :=
  let name_len := units.length
  let dcount := 2 + DIV_ROUND_UP name_len ENTRY_NAME_MAX
  let e_date := exfat_date_of t
  let e_time := exfat_time_of t
  let e_time_ms := exfat_time_ms_of t
  let fd : FileDe :=
    { num_ext := dcount - 1, attr := attr % 65536,
      create_date := e_date, create_time := e_time, create_time_ms := e_time_ms,
      create_tz := 128,
      modify_date := e_date, modify_time := e_time, modify_time_ms := e_time_ms,
      modify_tz := 128,
      access_date := e_date, access_time := e_time, access_tz := 128 }
  let sd : StreamDe :=
    { flags := 1, name_len := name_len % 256,
      name_hash := exfat_calc_name_hash upcase (u16buf units) name_len }
  let names := (List.range' 2 (dcount - 2)).map
    (fun i => Dentry.name (nameDentryUnits (u16buf units) i))
  let pre : List Dentry := .file fd :: .stream sd :: names
  let chk := calc_dentry_set_checksum (pre.map dentryBytes) dcount
  (setPrimaryChecksum pre chk, dcount)

/-- `exfat_update_file_dentry_set` (create.c:151): in-place update of a
dentry set.  `ccount * exfat->clus_size` is a 32-bit multiply (`clus_t` by
`unsigned int`), so the stored sizes wrap mod 2^32 before the 64-bit store. -/
def exfat_update_file_dentry_set (upcase : Nat → Nat) (dset : List Dentry)
    (dcount : Nat) (name : Option (List Nat)) (start_clu ccount clus_size : Nat) :
    Except Int (List Dentry) :=
  if dentryType (dset.getD 0 (.raw [])) ≠ 133 ∨ dcount < 3 then .error (-22)
  else
    let step1 : Except Int (List Dentry) :=
      match name with
      | some units =>
          if dcount ≠ 2 + DIV_ROUND_UP units.length ENTRY_NAME_MAX then .error (-22)
          else
            .ok ((List.range' 2 (dcount - 2)).foldl
              (fun ds i => ds.set i (.name (nameDentryUnits (u16buf units) i)))
              (modStream dset (fun s =>
                { s with name_len := units.length % 256,
                         name_hash := exfat_calc_name_hash upcase (u16buf units)
                           units.length })))
      | none => .ok dset
    match step1 with
    | .error e => .error e
    | .ok dset1 =>
      let sv := ccount * clus_size % 4294967296
      let dset2 := modStream dset1 (fun s => { s with valid_size := sv, size := sv })
      let dset3 :=
        if start_clu ≠ 0 then modStream dset2 (fun s => { s with start_clu := start_clu })
        else dset2
      .ok (setPrimaryChecksum dset3 (calc_dentry_set_checksum (dset3.map dentryBytes) dcount))

/-! ## C1: the set checksum -/

lemma chkFold_append (a b : List Nat) (c : Nat) :
    chkFold (a ++ b) c = chkFold b (chkFold a c) := by
  simp [chkFold, List.foldl_append]

lemma pad32_eq_take_append_drop (d : List Nat) :
    pad32 d = (pad32 d).take 2 ++ (pad32 d).drop 2 := (List.take_append_drop 2 _).symm

lemma calc_primary_eq_chkFold (d : List Nat) (c : Nat) :
    exfat_calc_dentry_checksum d c true = chkFold (primaryChkBytes d) c := by
  rw [exfat_calc_dentry_checksum, primaryChkBytes, chkFold_append, take_two_of_pad32]
  rfl

lemma calc_secondary_eq_chkFold (d : List Nat) (c : Nat) :
    exfat_calc_dentry_checksum d c false = chkFold (pad32 d) c := by
  rw [exfat_calc_dentry_checksum, pad32_eq_take_append_drop d, chkFold_append,
    take_two_of_pad32]
  simp [chkFold, List.drop_append_eq_append_drop, List.drop_drop]

lemma chkFold_flatten {α : Type} (l : List α) (f : α → List Nat) (c : Nat) :
    l.foldl (fun c a => chkFold (f a) c) c = chkFold ((l.map f).flatten) c := by
  induction l generalizing c with
  | nil => rfl
  | cons a t ih => simp [List.foldl_cons, ih, chkFold_append]

/-- The C1 equality for an arbitrary dentry set: the C recursion equals the
single fold over the claim's byte stream. -/
lemma calc_set_checksum_eq_stream (dset : List (List Nat)) (dcount : Nat)
    (h : MIN_FILE_DENTRIES ≤ dcount) :
    calc_dentry_set_checksum dset dcount = chkFold (setChkStream dset dcount) 0 := by
  rw [calc_dentry_set_checksum, if_neg (by omega), setChkStream, chkFold_append]
  simp only [calc_secondary_eq_chkFold, calc_primary_eq_chkFold]
  exact chkFold_flatten _ _ _

/-- The checksum of a primary dentry does not depend on its stored checksum
field (bytes 2 and 3 are skipped). -/
lemma calc_true_ignores_checksum (f : FileDe) (x c : Nat) :
    exfat_calc_dentry_checksum (dentryBytes (.file { f with checksum := x })) c true
      = exfat_calc_dentry_checksum (dentryBytes (.file f)) c true := by
  simp [exfat_calc_dentry_checksum, dentryBytes, le16Bytes, pad32, byteAt,
    DENTRY_SIZE, List.getD]

lemma calc_set_checksum_file_congr (f : FileDe) (x : Nat) (tail : List (List Nat))
    (dcount : Nat) :
    calc_dentry_set_checksum (dentryBytes (.file { f with checksum := x }) :: tail) dcount
      = calc_dentry_set_checksum (dentryBytes (.file f) :: tail) dcount := by
  rw [calc_dentry_set_checksum, calc_dentry_set_checksum]
  split
  · rfl
  · rw [show ((dentryBytes (.file { f with checksum := x }) :: tail).getD 0 []) =
        dentryBytes (.file { f with checksum := x }) from rfl,
      show ((dentryBytes (.file f) :: tail).getD 0 []) = dentryBytes (.file f) from rfl,
      calc_true_ignores_checksum]
    apply List.foldl_ext
    intro c i hi
    rcases List.mem_range'.mp hi with ⟨hge, _⟩
    obtain ⟨k, rfl⟩ : ∃ k, i = k + 1 := ⟨i - 1, by omega⟩
    rfl

lemma setPrimaryChecksum_cons (f : FileDe) (t : List Dentry) (chk : Nat) :
    setPrimaryChecksum (.file f :: t) chk = .file { f with checksum := chk } :: t := by
  simp [setPrimaryChecksum, List.getD, List.set]

/-- The stored checksum field of a set built over any file head is the set
checksum of the stored set itself. -/
lemma setPrimaryChecksum_stores (f : FileDe) (t : List Dentry) (dcount : Nat) :
    ((dentryBytes ((setPrimaryChecksum (.file f :: t)
        (calc_dentry_set_checksum ((Dentry.file f :: t).map dentryBytes) dcount)).getD 0
        (.raw []))).take 4).drop 2
      = le16Bytes (calc_dentry_set_checksum
          (((setPrimaryChecksum (.file f :: t)
              (calc_dentry_set_checksum ((Dentry.file f :: t).map dentryBytes) dcount)).map
            dentryBytes)) dcount) := by
  rw [setPrimaryChecksum_cons]
  simp only [List.getD_cons_zero, List.map_cons, calc_set_checksum_file_congr]
  simp [dentryBytes, le16Bytes]

/-- C1.  First conjunct: for every dentry set of `dcount ≥ 3` entries the
checksum computed by `calc_dentry_set_checksum` equals the fold of
`chk := rot_right_16(chk,1) + byte (mod 2^16)` started from 0 over the byte
stream "primary's 32 bytes minus bytes 2 and 3, then all 32 bytes of each
secondary in order".  Second conjunct: `exfat_build_file_dentry_set` stores
exactly that set checksum of the built set in the primary's checksum field
(bytes 2 and 3). -/
theorem C1_set_checksum_spec :
    (∀ (dset : List (List Nat)) (dcount : Nat), MIN_FILE_DENTRIES ≤ dcount →
      calc_dentry_set_checksum dset dcount = chkFold (setChkStream dset dcount) 0) ∧
    (∀ (upcase : Nat → Nat) (units : List Nat) (attr : Nat) (t : Tm),
      ((dentryBytes ((exfat_build_file_dentry_set upcase units attr t).1.getD 0
          (.raw []))).take 4).drop 2
        = le16Bytes (calc_dentry_set_checksum
            ((exfat_build_file_dentry_set upcase units attr t).1.map dentryBytes)
            (exfat_build_file_dentry_set upcase units attr t).2)) := by
  constructor
  · exact fun dset dcount h => calc_set_checksum_eq_stream dset dcount h
  · intro upcase units attr t
    rw [exfat_build_file_dentry_set]
    exact setPrimaryChecksum_stores _ _ _

/-- Witness for C1 at concrete inputs. -/
theorem C1_set_checksum_spec_witness :
    (MIN_FILE_DENTRIES ≤ 3 ∧
      calc_dentry_set_checksum [[7, 8], [9], [10]] 3
        = chkFold (setChkStream [[7, 8], [9], [10]] 3) 0) ∧
    ((dentryBytes ((exfat_build_file_dentry_set (fun u => u) [97] 0 {}).1.getD 0
        (.raw []))).take 4).drop 2
      = le16Bytes (calc_dentry_set_checksum
          ((exfat_build_file_dentry_set (fun u => u) [97] 0 {}).1.map dentryBytes)
          (exfat_build_file_dentry_set (fun u => u) [97] 0 {}).2) :=
  ⟨⟨by decide, C1_set_checksum_spec.1 [[7, 8], [9], [10]] 3 (by decide)⟩,
    C1_set_checksum_spec.2 (fun u => u) [97] 0 {}⟩

/-! ## C5, C6: building and updating a dentry set -/

instance {e a : Type} [DecidableEq e] [DecidableEq a] : DecidableEq (Except e a) :=
  fun x y =>
    match x, y with
    | .ok u, .ok v => decidable_of_iff (u = v) (by simp)
    | .error u, .error v => decidable_of_iff (u = v) (by simp)
    | .ok _, .error _ => isFalse (by simp)
    | .error _, .ok _ => isFalse (by simp)

lemma set_getElem_self {α : Type} (l : List α) (n : Nat) (h : n < l.length) :
    l.set n l[n] = l := by
  apply List.ext_getElem
  · simp
  · intro i h1 h2
    rw [List.getElem_set]
    split
    · next heq => subst heq; rfl
    · rfl

lemma foldl_set_self {α : Type} (g : Nat → α) :
    ∀ (n s : Nat) (l : List α),
      (∀ i (h : i < l.length), s ≤ i → i < s + n → l[i] = g i) → s + n ≤ l.length →
      (List.range' s n).foldl (fun ds i => ds.set i (g i)) l = l := by
  intro n
  induction n with
  | zero => intro s l _ _; rfl
  | succ m ih =>
    intro s l hval hlen
    have hr : List.range' s (m + 1) = s :: List.range' (s + 1) m := rfl
    rw [hr, List.foldl_cons]
    have hsl : s < l.length := by omega
    have hset : l.set s (g s) = l := by
      have hv := hval s hsl (le_refl s) (by omega)
      rw [← hv]; exact set_getElem_self l s hsl
    rw [hset]
    exact ih (s + 1) l (fun i h h1 h2 => hval i h (by omega) (by omega)) (by omega)

/-- Rewriting the name dentries of a set that already holds exactly those
name dentries leaves the set unchanged. -/
lemma update_names_self (a b : Dentry) (g : Nat → Dentry) (n : Nat) :
    (List.range' 2 n).foldl (fun ds i => ds.set i (g i)) (a :: b :: (List.range' 2 n).map g)
      = a :: b :: (List.range' 2 n).map g := by
  apply foldl_set_self
  · intro i h h1 h2
    obtain ⟨k, rfl⟩ : ∃ k, i = k + 2 := ⟨i - 2, by omega⟩
    have h2k : 2 + k = k + 2 := by omega
    simp [List.getElem_range', h2k]
  · simp; omega

/-- The C5 patch, with the stored size value `sv` as a parameter: start_clu,
valid_size and size rewritten inside the stream dentry, the set checksum
recomputed into the primary; nothing else touched. -/
def c5Patch (dset : List Dentry) (dcount start_clu sv : Nat) : List Dentry :=
  let d2 := modStream dset (fun s => { s with valid_size := sv, size := sv })
  let d3 := modStream d2 (fun s => { s with start_clu := start_clu })
  setPrimaryChecksum d3 (calc_dentry_set_checksum (d3.map dentryBytes) dcount)

/-- `exfat_update_file_dentry_set` on any well-formed set whose stream dentry
already carries the name's length and hash equals the C5 patch. -/
lemma update_general (upcase : Nat → Nat) (units : List Nat)
    (start ccount cs n : Nat) (f : FileDe) (sd : StreamDe)
    (hn : n = DIV_ROUND_UP units.length ENTRY_NAME_MAX) (h1 : 1 ≤ n)
    (hnl : sd.name_len = units.length % 256)
    (hnh : sd.name_hash = exfat_calc_name_hash upcase (u16buf units) units.length)
    (hs : start ≠ 0) :
    exfat_update_file_dentry_set upcase
        (.file f :: .stream sd ::
          (List.range' 2 n).map (fun i => .name (nameDentryUnits (u16buf units) i)))
        (2 + n) (some units) start ccount cs
      = .ok (c5Patch
          (.file f :: .stream sd ::
            (List.range' 2 n).map (fun i => .name (nameDentryUnits (u16buf units) i)))
          (2 + n) start (ccount * cs % 4294967296)) := by
  obtain ⟨s1, s2, s3, s4, s5, s6⟩ := sd
  subst hnl hnh
  rw [exfat_update_file_dentry_set]
  rw [if_neg (by simp [dentryType, dentryBytes, byteAt, List.getD]; omega)]
  rw [if_neg (by omega : ¬(2 + n ≠ 2 + DIV_ROUND_UP units.length ENTRY_NAME_MAX))]
  simp only [modStream, List.getD_cons_succ, List.getD_cons_zero, List.set]
  rw [show (2 + n - 2) = n from by omega]
  rw [update_names_self]
  rw [if_pos hs]
  rw [c5Patch]
  simp only [modStream, List.getD_cons_succ, List.getD_cons_zero, List.set]

/-- C5, amended: updating a freshly built set with the same name, a nonzero
start cluster and a cluster count yields exactly the built set with
`stream.start_clu` set, `stream.valid_size` and `stream.size` set to
`count·C mod 2^32` (the C multiplies `clus_t` by `unsigned int` in 32 bits
before widening), and the primary checksum recomputed; all other fields, and
hence all other bytes, unchanged. -/
theorem C5_round_trip_mod32 (upcase : Nat → Nat) (units : List Nat) (attr : Nat) (t : Tm)
    (start ccount cs : Nat) (hl : 1 ≤ units.length) (hs : start ≠ 0) :
    exfat_update_file_dentry_set upcase (exfat_build_file_dentry_set upcase units attr t).1
        (exfat_build_file_dentry_set upcase units attr t).2 (some units) start ccount cs
      = .ok (c5Patch (exfat_build_file_dentry_set upcase units attr t).1
          (exfat_build_file_dentry_set upcase units attr t).2 start
          (ccount * cs % 4294967296)) := by
  have h1 : 1 ≤ DIV_ROUND_UP units.length ENTRY_NAME_MAX := by
    rw [DIV_ROUND_UP, ENTRY_NAME_MAX]; omega
  rw [exfat_build_file_dentry_set]
  simp only [setPrimaryChecksum_cons]
  rw [show (2 + DIV_ROUND_UP units.length ENTRY_NAME_MAX - 2)
      = DIV_ROUND_UP units.length ENTRY_NAME_MAX from by omega]
  exact update_general upcase units start ccount cs _ _ _ rfl h1 rfl rfl hs

/-- Witness for C5 at a concrete name, start cluster and count. -/
theorem C5_round_trip_mod32_witness :
    (1 ≤ ([97] : List Nat).length ∧ (5 : Nat) ≠ 0) ∧
    exfat_update_file_dentry_set (fun u => u)
        (exfat_build_file_dentry_set (fun u => u) [97] 0 {}).1
        (exfat_build_file_dentry_set (fun u => u) [97] 0 {}).2 (some [97]) 5 8388608 512
      = .ok (c5Patch (exfat_build_file_dentry_set (fun u => u) [97] 0 {}).1
          (exfat_build_file_dentry_set (fun u => u) [97] 0 {}).2 5
          (8388608 * 512 % 4294967296)) :=
  ⟨⟨by decide, by decide⟩,
    C5_round_trip_mod32 (fun u => u) [97] 0 {} 5 8388608 512 (by decide) (by decide)⟩

set_option maxRecDepth 10000 in
/-- Counterexample to C5 as stated: with cluster size 512 and cluster count
2^23 the product `count·C = 2^32` overflows the 32-bit multiply, so the
stored sizes are 0, not `count·C`. -/
theorem C5_sizes_wrap_counterexample :
    exfat_update_file_dentry_set (fun u => u)
        (exfat_build_file_dentry_set (fun u => u) [97] 0 {}).1
        (exfat_build_file_dentry_set (fun u => u) [97] 0 {}).2 (some [97]) 5 8388608 512
      ≠ .ok (c5Patch (exfat_build_file_dentry_set (fun u => u) [97] 0 {}).1
          (exfat_build_file_dentry_set (fun u => u) [97] 0 {}).2 5 (8388608 * 512)) := by
  decide

set_option maxRecDepth 10000 in
/-- C6, evaluated at the failing input: a 16-code-unit name ("a" sixteen
times).  `dcount = 2 + ⌈16/15⌉ = 4` as claimed, and the first name dentry
holds units 0..14; but the second name dentry is all zeros, because the copy
source `utf16_name + (i-2)*ENTRY_NAME_MAX*2` advances by 30 code units (not
15: the `*2` is applied to `__le16` pointer arithmetic), while the claim — and
`filter_lookup_file`, which compares consecutive 15-unit chunks — expects it
to hold code units 15..29, i.e. unit 15 (= 97) then zero padding. -/
theorem C6_name_dentry_content_bug :
    (exfat_build_file_dentry_set (fun u => u) (List.replicate 16 97) 0 {}).2 = 4 ∧
    (exfat_build_file_dentry_set (fun u => u) (List.replicate 16 97) 0 {}).1.getD 2 (.raw [])
      = .name (List.replicate 15 97) ∧
    (exfat_build_file_dentry_set (fun u => u) (List.replicate 16 97) 0 {}).1.getD 3 (.raw [])
      = .name (List.replicate 15 0) ∧
    Dentry.name (List.replicate 15 0) ≠ .name (97 :: List.replicate 14 0) := by
  decide

/-! ## Volume context, bitmap and cluster-chain navigator (exfat_fs.c) -/

/-- The fields of `struct exfat` the claims need: `clus_count` (a `__le32`
boot-sector field, so `< 2^32`) and the cluster size in bytes. -/
structure ExfatCtx where
  clus_count : Nat
  clus_size : Nat
  deriving DecidableEq, Repr

/-- `heap_clus` (exfat_fs.h:81): `2 ≤ c` and `c - 2 < clus_count` (the
subtraction is guarded by the first conjunct, as in the C short-circuit). -/
def heap_clus (e : ExfatCtx) (c : Nat) : Bool :=
  decide (EXFAT_FIRST_CLUSTER ≤ c) && decide (c - EXFAT_FIRST_CLUSTER < e.clus_count)

/-- Bitmaps are modelled as predicates on the cluster index.  `exfat_bitmap_get`
and `exfat_bitmap_set` both address bit `c - EXFAT_FIRST_CLUSTER`, so the
offset cancels and a cluster-indexed function is a faithful abstraction. -/
def exfat_bitmap_set (bm : Nat → Bool) (c : Nat) : Nat → Bool :=
  fun x => if x = c then true else bm x

/-- The `while (clus < start_clus + count)` loop of `exfat_bitmap_set_range`,
with the (u32) loop bound already evaluated. -/
def bitmap_set_loop (bm : Nat → Bool) (clus endv : Nat) : Nat → Bool :=
  if clus < endv then bitmap_set_loop (exfat_bitmap_set bm clus) (clus + 1) endv
  else bm
termination_by endv - clus

/-- `exfat_bitmap_set_range` (exfat_fs.c:31): no-op unless `start_clus` and
`start_clus + count` (a u32 sum, hence the mod) are both heap clusters, else
set bits `start_clus ..< start_clus + count`. -/
def exfat_bitmap_set_range (e : ExfatCtx) (bm : Nat → Bool) (start_clus count : Nat) :
    Nat → Bool :=
  if ¬(heap_clus e start_clus) ∨ ¬(heap_clus e ((start_clus + count) % 4294967296)) then bm
  else bitmap_set_loop bm start_clus ((start_clus + count) % 4294967296)

lemma bitmap_set_loop_spec_aux (n : Nat) :
    ∀ (bm : Nat → Bool) (s e : Nat), e - s = n →
      ∀ x, bitmap_set_loop bm s e x = if s ≤ x ∧ x < e then true else bm x := by
  induction n with
  | zero =>
    intro bm s e hn x
    rw [bitmap_set_loop, if_neg (by omega), if_neg (by omega)]
  | succ m ih =>
    intro bm s e hn x
    rw [bitmap_set_loop, if_pos (by omega)]
    rw [ih (exfat_bitmap_set bm s) (s + 1) e (by omega)]
    simp only [exfat_bitmap_set]
    by_cases h1 : s + 1 ≤ x ∧ x < e
    · rw [if_pos h1, if_pos (by omega)]
    · rw [if_neg h1]
      by_cases hx : x = s
      · subst hx
        rw [if_pos rfl, if_pos (by omega)]
      · rw [if_neg hx, if_neg (by omega)]

lemma bitmap_set_loop_spec (bm : Nat → Bool) (s e : Nat) :
    ∀ x, bitmap_set_loop bm s e x = if s ≤ x ∧ x < e then true else bm x :=
  bitmap_set_loop_spec_aux (e - s) bm s e rfl

/-- C9: `exfat_bitmap_set_range` leaves the bitmap unchanged when either of
`start` and `start+count` is outside the cluster heap, and when both are heap
clusters it sets exactly the bits of clusters `start ..= start+count-1`.
`count < 2^32` is the `clus_t` width; `clus_count ≤ 2^32 - 2` holds for every
validated boot record (the exFAT limit is `0xFFFFFFF5`). -/
theorem C9_bitmap_set_range (e : ExfatCtx) (bm : Nat → Bool) (start count : Nat)
    (hcc : e.clus_count ≤ 4294967294) (hcount : count < 4294967296) :
    (¬(heap_clus e start = true ∧ heap_clus e (start + count) = true) →
      exfat_bitmap_set_range e bm start count = bm) ∧
    (heap_clus e start = true → heap_clus e (start + count) = true →
      ∀ x, exfat_bitmap_set_range e bm start count x
        = if start ≤ x ∧ x < start + count then true else bm x) := by
  constructor
  · intro hno
    rw [exfat_bitmap_set_range]
    split
    · rfl
    · next hg =>
      push_neg at hg
      obtain ⟨hg1, hg2⟩ := hg
      by_cases hlt : start + count < 4294967296
      · rw [Nat.mod_eq_of_lt hlt] at hg2
        exact absurd ⟨hg1, hg2⟩ hno
      · -- the u32 sum wrapped: the loop bound is below `start`, so the loop
        -- body never runs
        have hs2 : EXFAT_FIRST_CLUSTER ≤ start ∧
            start - EXFAT_FIRST_CLUSTER < e.clus_count := by
          simpa [heap_clus] using hg1
        have hmod : (start + count) % 4294967296 = start + count - 4294967296 := by
          rw [EXFAT_FIRST_CLUSTER] at hs2
          omega
        funext x
        rw [bitmap_set_loop_spec]
        rw [if_neg (by omega)]
  · intro h1 h2 x
    have hs2 : EXFAT_FIRST_CLUSTER ≤ start + count ∧
        start + count - EXFAT_FIRST_CLUSTER < e.clus_count := by
      simpa [heap_clus] using h2
    have hlt : start + count < 4294967296 := by
      rw [EXFAT_FIRST_CLUSTER] at hs2
      omega
    rw [exfat_bitmap_set_range, if_neg (by rw [Nat.mod_eq_of_lt hlt]; simp [h1, h2]),
      Nat.mod_eq_of_lt hlt, bitmap_set_loop_spec]

/-- Witness for C9 with an 8-cluster heap: the range 3..=4 is set exactly,
and the range 8..=9 (end cluster 10 outside the heap) is a no-op. -/
theorem C9_bitmap_set_range_witness :
    (⟨8, 512⟩ : ExfatCtx).clus_count ≤ 4294967294 ∧ (2 : Nat) < 4294967296 ∧
    (¬(heap_clus ⟨8, 512⟩ 3 = true ∧ heap_clus ⟨8, 512⟩ (3 + 2) = true) →
      exfat_bitmap_set_range ⟨8, 512⟩ (fun _ => false) 3 2 = fun _ => false) ∧
    (heap_clus ⟨8, 512⟩ 3 = true → heap_clus ⟨8, 512⟩ (3 + 2) = true →
      ∀ x, exfat_bitmap_set_range ⟨8, 512⟩ (fun _ => false) 3 2 x
        = if 3 ≤ x ∧ x < 3 + 2 then true else false) :=
  ⟨by decide, by decide,
    (C9_bitmap_set_range ⟨8, 512⟩ (fun _ => false) 3 2 (by decide) (by decide)).1,
    (C9_bitmap_set_range ⟨8, 512⟩ (fun _ => false) 3 2 (by decide) (by decide)).2⟩

/-! ## C10: the cluster-chain navigator stores the EOF sentinel first -/

/-- `get_next_clus` (exfat_fs.c:64).  Returns `(retval, *next)`.  The device
read of the 4-byte FAT entry is `fatRead` (`none` models a failed or short
`exfat_read`, which leaves the model `*next` untouched; a short read's byte
effects on `*next` are below this model's granularity).  `*next` is set to
`EXFAT_EOF_CLUSTER` before the cluster is validated. -/
def get_next_clus (e : ExfatCtx) (fatRead : Nat → Option Nat) (clus : Nat) : Int × Nat :=
  let next := EXFAT_EOF_CLUSTER
  if ¬heap_clus e clus then (-22, next)
  else
    match fatRead clus with
    | none => (-5, next)
    | some v => (0, v % 4294967296)

/-- `get_inode_next_clus` (exfat_fs.c:85): `*next = EXFAT_EOF_CLUSTER` first;
contiguous inodes get `clus + 1` after validation, others delegate. -/
def get_inode_next_clus (e : ExfatCtx) (fatRead : Nat → Option Nat)
    (is_contiguous : Bool) (clus : Nat) : Int × Nat :=
  let next := EXFAT_EOF_CLUSTER
  if is_contiguous then
    if ¬heap_clus e clus then (-22, next) else (0, (clus + 1) % 4294967296)
  else get_next_clus e fatRead clus

/-- C10: on every failure return of `get_next_clus` and `get_inode_next_clus`
(invalid cluster or read error) the caller observes
`*next = EXFAT_EOF_CLUSTER`. -/
theorem C10_next_clus_eof_on_failure (e : ExfatCtx) (fatRead : Nat → Option Nat)
    (is_contiguous : Bool) (clus : Nat) :
    ((get_next_clus e fatRead clus).1 ≠ 0 →
      (get_next_clus e fatRead clus).2 = EXFAT_EOF_CLUSTER) ∧
    ((get_inode_next_clus e fatRead is_contiguous clus).1 ≠ 0 →
      (get_inode_next_clus e fatRead is_contiguous clus).2 = EXFAT_EOF_CLUSTER) := by
  have hnext : (get_next_clus e fatRead clus).1 ≠ 0 →
      (get_next_clus e fatRead clus).2 = EXFAT_EOF_CLUSTER := by
    by_cases hc : heap_clus e clus
    · cases hf : fatRead clus with
      | none => intro _; simp [get_next_clus, hc, hf]
      | some v => intro hne; exact absurd (by simp [get_next_clus, hc, hf]) hne
    · intro _; simp [get_next_clus, hc]
  refine ⟨hnext, ?_⟩
  cases is_contiguous with
  | false => intro h; exact hnext (by simpa [get_inode_next_clus] using h)
  | true =>
    by_cases hc : heap_clus e clus
    · intro hne; exact absurd (by simp [get_inode_next_clus, hc]) hne
    · intro _; simp [get_inode_next_clus, hc]

/-- Witness for C10: cluster 0 is invalid, so both navigators fail with the
sentinel stored. -/
theorem C10_next_clus_eof_on_failure_witness :
    ((get_next_clus ⟨8, 512⟩ (fun _ => some 3) 0).1 ≠ 0 →
      (get_next_clus ⟨8, 512⟩ (fun _ => some 3) 0).2 = EXFAT_EOF_CLUSTER) ∧
    ((get_inode_next_clus ⟨8, 512⟩ (fun _ => some 3) true 0).1 ≠ 0 →
      (get_inode_next_clus ⟨8, 512⟩ (fun _ => some 3) true 0).2 = EXFAT_EOF_CLUSTER) :=
  C10_next_clus_eof_on_failure ⟨8, 512⟩ (fun _ => some 3) true 0

/-! ## C2: `check_clus_chain` (fsck.c:98) -/

/-- The inconsistency codes `check_clus_chain` can raise (repair.h). -/
inductive ErCode where
  | fileFirstClus
  | fileSmallerSize
  | fileDuplicatedClus
  | fileInvalidClus
  | fileLargerSize
  deriving DecidableEq, Repr

/-- Outcome of `check_clus_chain`: return value, the inode fields and stream
dentry after the call, the in-memory bitmap, the FAT write done by the
truncation (at most one `set_fat`), and the repair prompts raised in order. -/
structure ChainResult where
  ret : Int
  size : Nat
  first_clus : Nat
  stream : StreamDe
  alloc : Nat → Bool
  fat_write : Option (Nat × Nat)
  asks : List ErCode

/-- The `truncate_file:` tail of `check_clus_chain` (fsck.c:201): rewrite the
inode's size, possibly its first cluster, the dirty stream dentry's
valid_size / start_clu / size, and terminate the kept chain in the FAT. -/
def truncate_file (e : ExfatCtx) (contig : Bool) (first_clus : Nat)
    (stream : StreamDe) (count prev : Nat) (alloc : Nat → Bool) (asks : List ErCode) :
    ChainResult :=
  let newSize := count * e.clus_size
  let first' := if ¬heap_clus e prev then EXFAT_FREE_CLUSTER else first_clus
  let s1 := if newSize < stream.valid_size then { stream with valid_size := newSize }
            else stream
  let s2 := if ¬heap_clus e prev then { s1 with start_clu := EXFAT_FREE_CLUSTER } else s1
  let s3 := { s2 with size := newSize }
  if ¬contig ∧ heap_clus e prev then
    { ret := 0, size := newSize, first_clus := first', stream := s3, alloc := alloc,
      fat_write := some (prev, EXFAT_EOF_CLUSTER), asks := asks }
  else
    { ret := 1, size := newSize, first_clus := first', stream := s3, alloc := alloc,
      fat_write := none, asks := asks }

/-- The `while (clus != EXFAT_EOF_CLUSTER)` loop of `check_clus_chain` plus
the trailing `count < max_count` check.  `dec` is the repair policy: whether
`repair_file_ask` is accepted for a code (each run raises at most one prompt,
since every prompt is followed by an exit).  `size`/`first_clus` are the
inode fields at entry. -/
def check_clus_chain_loop (e : ExfatCtx) (contig : Bool) (size first_clus : Nat)
    (stream : StreamDe) (disk : Nat → Bool) (fatRead : Nat → Option Nat)
    (dec : ErCode → Bool) (max_count : Nat)
    (clus prev count : Nat) (alloc : Nat → Bool) (asks : List ErCode) : ChainResult :=
  if clus = EXFAT_EOF_CLUSTER then
    if count < max_count then
      let asks := asks ++ [.fileLargerSize]
      if dec .fileLargerSize then
        truncate_file e contig first_clus stream count prev alloc asks
      else { ret := -22, size := size, first_clus := first_clus, stream := stream,
             alloc := alloc, fat_write := none, asks := asks }
    else { ret := 0, size := size, first_clus := first_clus, stream := stream,
           alloc := alloc, fat_write := none, asks := asks }
  else if hmax : max_count ≤ count then
    if contig then
      { ret := 0, size := size, first_clus := first_clus, stream := stream,
        alloc := alloc, fat_write := none, asks := asks }
    else
      let asks := asks ++ [.fileSmallerSize]
      if dec .fileSmallerSize then
        truncate_file e contig first_clus stream count prev alloc asks
      else { ret := -22, size := size, first_clus := first_clus, stream := stream,
             alloc := alloc, fat_write := none, asks := asks }
  else if alloc clus then
    let asks := asks ++ [.fileDuplicatedClus]
    if dec .fileDuplicatedClus then
      truncate_file e contig first_clus stream count prev alloc asks
    else { ret := -22, size := size, first_clus := first_clus, stream := stream,
           alloc := alloc, fat_write := none, asks := asks }
  else if ¬disk clus then
    let asks := asks ++ [.fileInvalidClus]
    if dec .fileInvalidClus then
      truncate_file e contig first_clus stream count prev alloc asks
    else { ret := -22, size := size, first_clus := first_clus, stream := stream,
           alloc := alloc, fat_write := none, asks := asks }
  else
    let rn := get_inode_next_clus e fatRead contig clus
    if rn.1 ≠ 0 then truncate_file e contig first_clus stream count prev alloc asks
    else if ¬contig ∧ (¬(heap_clus e rn.2) ∧ rn.2 ≠ EXFAT_EOF_CLUSTER) then
      let asks := asks ++ [.fileInvalidClus]
      if dec .fileInvalidClus then
        truncate_file e contig first_clus stream count prev alloc asks
      else { ret := -22, size := size, first_clus := first_clus, stream := stream,
             alloc := alloc, fat_write := none, asks := asks }
    else
      check_clus_chain_loop e contig size first_clus stream disk fatRead dec max_count
        rn.2 clus (count + 1) (exfat_bitmap_set alloc clus) asks
termination_by max_count - count
decreasing_by simp_wf; omega

/-- `check_clus_chain` (fsck.c:98). -/
def check_clus_chain (e : ExfatCtx) (contig : Bool) (first_clus size : Nat)
    (stream : StreamDe) (alloc disk : Nat → Bool) (fatRead : Nat → Option Nat)
    (dec : ErCode → Bool) : ChainResult :=
  let max_count := DIV_ROUND_UP size e.clus_size
  if size = 0 ∧ first_clus = EXFAT_FREE_CLUSTER then
    { ret := 0, size := size, first_clus := first_clus, stream := stream,
      alloc := alloc, fat_write := none, asks := [] }
  else if (size = 0 ∧ first_clus ≠ EXFAT_FREE_CLUSTER) ∨
      (0 < size ∧ ¬heap_clus e first_clus) then
    if dec .fileFirstClus then
      truncate_file e contig first_clus stream 0 EXFAT_EOF_CLUSTER alloc [.fileFirstClus]
    else { ret := -22, size := size, first_clus := first_clus, stream := stream,
           alloc := alloc, fat_write := none, asks := [.fileFirstClus] }
  else
    check_clus_chain_loop e contig size first_clus stream disk fatRead dec max_count
      first_clus EXFAT_EOF_CLUSTER 0 alloc []

lemma heap_clus_eof (e : ExfatCtx) (hcc : e.clus_count ≤ 4294967293) :
    heap_clus e EXFAT_EOF_CLUSTER = false := by
  simp only [heap_clus, EXFAT_EOF_CLUSTER, EXFAT_FIRST_CLUSTER]
  simp only [Bool.and_eq_false_iff, decide_eq_false_iff_not]
  omega

/-- C2: an inode with size 0 and first cluster 0 is accepted with no error
and no repair prompt and no state change; an inode with size 0 but nonzero
first cluster, or positive size but invalid first cluster, raises exactly the
`FileFirstClus` prompt — accepting truncates the file (size, first cluster,
and the stream dentry's size, valid_size and start_clu all rewritten to 0,
no FAT write), declining returns `-EINVAL` with everything untouched.
`clus_count ≤ 2^32 - 3` holds for every validated boot record. -/
theorem C2_first_cluster_check (e : ExfatCtx) (contig : Bool) (first_clus size : Nat)
    (stream : StreamDe) (alloc disk : Nat → Bool) (fatRead : Nat → Option Nat)
    (dec : ErCode → Bool) (hcc : e.clus_count ≤ 4294967293) :
    (size = 0 ∧ first_clus = EXFAT_FREE_CLUSTER →
      check_clus_chain e contig first_clus size stream alloc disk fatRead dec
        = { ret := 0, size := size, first_clus := first_clus, stream := stream,
            alloc := alloc, fat_write := none, asks := [] }) ∧
    ((size = 0 ∧ first_clus ≠ EXFAT_FREE_CLUSTER) ∨
        (0 < size ∧ heap_clus e first_clus = false) →
      (check_clus_chain e contig first_clus size stream alloc disk fatRead dec).asks
          = [.fileFirstClus] ∧
      (dec .fileFirstClus = true →
        check_clus_chain e contig first_clus size stream alloc disk fatRead dec
          = { ret := 1, size := 0, first_clus := EXFAT_FREE_CLUSTER,
              stream := { stream with
                valid_size := 0, start_clu := EXFAT_FREE_CLUSTER, size := 0 },
              alloc := alloc, fat_write := none, asks := [.fileFirstClus] }) ∧
      (dec .fileFirstClus = false →
        check_clus_chain e contig first_clus size stream alloc disk fatRead dec
          = { ret := -22, size := size, first_clus := first_clus, stream := stream,
              alloc := alloc, fat_write := none, asks := [.fileFirstClus] })) := by
  have heof := heap_clus_eof e hcc
  constructor
  · intro h
    rw [check_clus_chain, if_pos h]
  · intro h
    have hg1 : ¬(size = 0 ∧ first_clus = EXFAT_FREE_CLUSTER) := by
      rcases h with ⟨h1, h2⟩ | ⟨h1, h2⟩
      · exact fun hc => h2 hc.2
      · exact fun hc => by omega
    have hg2 : (size = 0 ∧ first_clus ≠ EXFAT_FREE_CLUSTER) ∨
        (0 < size ∧ ¬heap_clus e first_clus) := by
      rcases h with ⟨h1, h2⟩ | ⟨h1, h2⟩
      · exact Or.inl ⟨h1, h2⟩
      · exact Or.inr ⟨h1, by simp [h2]⟩
    rw [check_clus_chain]
    simp only [if_neg hg1, if_pos hg2]
    obtain ⟨s1, s2, s3, s4, s5, s6⟩ := stream
    cases hdec : dec .fileFirstClus with
    | true =>
      simp only [hdec, if_true]
      refine ⟨?_, fun _ => ?_, fun hf => by simp at hf⟩
      · rw [truncate_file]
        simp [heof]
      · rw [truncate_file]
        simp only [heof, Nat.zero_mul]
        split_ifs with h1 h2 <;> simp_all
    | false =>
      simp [hdec]

/-- Witness for C2: a zero-sized inode with nonzero first cluster 5, repair
accepted: exactly one FileFirstClus prompt and the truncation is applied. -/
theorem C2_first_cluster_check_witness :
    (check_clus_chain ⟨8, 512⟩ false 5 0 ⟨1, 1, 0, 7, 5, 9⟩ (fun _ => false)
        (fun _ => false) (fun _ => some 0) (fun _ => true)).asks = [.fileFirstClus] ∧
    check_clus_chain ⟨8, 512⟩ false 5 0 ⟨1, 1, 0, 7, 5, 9⟩ (fun _ => false)
        (fun _ => false) (fun _ => some 0) (fun _ => true)
      = { ret := 1, size := 0, first_clus := EXFAT_FREE_CLUSTER,
          stream := { flags := 1, name_len := 1, name_hash := 0, valid_size := 0,
                      start_clu := 0, size := 0 },
          alloc := fun _ => false, fat_write := none, asks := [.fileFirstClus] } :=
  have h := C2_first_cluster_check ⟨8, 512⟩ false 5 0 ⟨1, 1, 0, 7, 5, 9⟩ (fun _ => false)
    (fun _ => false) (fun _ => some 0) (fun _ => true) (by decide)
  ⟨(h.2 (Or.inl ⟨rfl, by decide⟩)).1, (h.2 (Or.inl ⟨rfl, by decide⟩)).2.1 rfl⟩

/-! ## C3: the FAT reclaim pass `write_dirty_fat` (fsck.c:902)

The FAT is the state `fat : Nat → Nat` (entry index → stored u32).  Each
window reads `cnt = min(read_size/4, last_clus - clus)` entries, frees the
entries whose cluster is not in the in-memory bitmap, marks their sectors
dirty, and writes dirty sectors back.  A dirty sector is written back whole,
entries of allocated clusters in it getting their just-read values.  The tail
of a partially-filled dirty sector lies past entry `last_clus`, outside the
FAT region modelled by `fat`. -/

/-- The name comparison loop `for (i = 2; i <= num_ext && name_len > 0; i++)`
(lookup.c:144): each name dentry must hold the next `min(15, remaining)` code
units of the target.  Returns the exit value of `i` (written to
`*dentry_count`) on full match, `none` on mismatch.  `fuel` only bounds the
iteration count so the recursion is structural; `rem.length` iterations
always suffice, and the wrapper `flfLoop` supplies them. -/
def flfLoopF (getDe : Nat → Option Dentry) (num_ext : Nat) :
    Nat → Nat → List Nat → Option Nat
  | fuel, i, rem =>
    if i ≤ num_ext ∧ rem ≠ [] then
      match getDe i with
      | some (.name u) =>
          let len := min rem.length ENTRY_NAME_MAX
          if (List.range len).map (fun j => u.getD j 0 % 65536)
              = (rem.take len).map (fun v => v % 65536) then
            match fuel with
            | f + 1 => flfLoopF getDe num_ext f (i + 1) (rem.drop len)
            | 0 => none
          else none
      | _ => none
    else some i

/-- The comparison loop with enough fuel for its `rem`. -/
def flfLoop (getDe : Nat → Option Dentry) (num_ext i : Nat) (rem : List Nat) :
    Option Nat :=
  flfLoopF getDe num_ext rem.length i rem

/-- `filter_lookup_file` (lookup.c:121): `some count` models "return 0 with
`*dentry_count = count`", `none` models "return 1" (no match; `de_iter_get`
errors also return 1). -/
def filter_lookup_file (getDe : Nat → Option Dentry) (nameUnits : List Nat) :
    Option Nat :=
  match getDe 0 with
  | some (.file f) =>
      match getDe 1 with
      | some (.stream _) =>
          let name_len := nameUnits.length
          if f.num_ext % 256 <
              1 + (name_len + ENTRY_NAME_MAX - 1) / ENTRY_NAME_MAX then none
          else flfLoop getDe (f.num_ext % 256) 2 nameUnits
      | _ => none
  | _ => none

lemma flfLoopF_count (getDe : Nat → Option Dentry) (num_ext : Nat) :
    ∀ (n : Nat) (i : Nat) (rem : List Nat), rem.length ≤ n → rem ≠ [] →
      i + DIV_ROUND_UP rem.length ENTRY_NAME_MAX ≤ num_ext + 1 →
      ∀ j, flfLoopF getDe num_ext n i rem = some j →
        j = i + DIV_ROUND_UP rem.length ENTRY_NAME_MAX := by
  intro n
  induction n with
  | zero =>
    intro i rem hlen hne
    exact absurd (List.length_eq_zero.mp (by omega)) hne
  | succ m ih =>
    intro i rem hlen hne hinv j hrun
    have hlp : 0 < rem.length := List.length_pos.mpr hne
    have hE : ENTRY_NAME_MAX = 15 := rfl
    have hdr1 : 1 ≤ DIV_ROUND_UP rem.length ENTRY_NAME_MAX := by
      rw [DIV_ROUND_UP, hE]; omega
    rw [flfLoopF, if_pos ⟨by omega, hne⟩] at hrun
    match hde : getDe i with
    | none => rw [hde] at hrun; cases hrun
    | some (.file _) => rw [hde] at hrun; cases hrun
    | some (.stream _) => rw [hde] at hrun; cases hrun
    | some (.raw _) => rw [hde] at hrun; cases hrun
    | some (.name u) =>
      rw [hde] at hrun
      simp only at hrun
      split at hrun
      · by_cases hsmall : rem.length ≤ ENTRY_NAME_MAX
        · -- last chunk: the loop exits with rem empty at i+1
          have hdrop : rem.drop (min rem.length ENTRY_NAME_MAX) = [] := by
            rw [min_eq_left hsmall, List.drop_length]
          rw [hdrop] at hrun
          rw [flfLoopF] at hrun
          rw [if_neg (by simp)] at hrun
          have hj : j = i + 1 := by
            injection hrun with h
            omega
          have hd1 : DIV_ROUND_UP rem.length ENTRY_NAME_MAX = 1 := by
            rw [hE] at hsmall
            rw [DIV_ROUND_UP, hE]
            omega
          omega
        · -- a full 15-unit chunk consumed
          push_neg at hsmall
          have hmin : min rem.length ENTRY_NAME_MAX = ENTRY_NAME_MAX :=
            min_eq_right (by omega)
          rw [hmin] at hrun
          have hlen' : (rem.drop ENTRY_NAME_MAX).length
              = rem.length - ENTRY_NAME_MAX := by
            rw [List.length_drop]
          have hdu : DIV_ROUND_UP (rem.length - ENTRY_NAME_MAX) ENTRY_NAME_MAX
              = DIV_ROUND_UP rem.length ENTRY_NAME_MAX - 1 := by
            rw [DIV_ROUND_UP, DIV_ROUND_UP, hE]
            rw [hE] at hsmall
            omega
          have hne' : rem.drop ENTRY_NAME_MAX ≠ [] := by
            rw [← List.length_pos, hlen']
            rw [hE] at hsmall ⊢
            omega
          have hlenm : (rem.drop ENTRY_NAME_MAX).length ≤ m := by
            rw [hlen']
            rw [hE] at hsmall ⊢
            omega
          have hinv' : (i + 1) + DIV_ROUND_UP (rem.drop ENTRY_NAME_MAX).length
              ENTRY_NAME_MAX ≤ num_ext + 1 := by
            rw [hlen', hdu]
            omega
          have hj := ih (i + 1) (rem.drop ENTRY_NAME_MAX) hlenm hne' hinv' j hrun
          rw [hlen', hdu] at hj
          omega
      · cases hrun

/-- C7, amended: whenever `filter_lookup_file` fully matches (returns 0) on a
nonempty target of `len` code units, it sets `*dentry_count` to
`2 + ⌈len/15⌉` — which equals `file.num_ext + 1` exactly when `num_ext` is
the minimum the guard admits, but not when the set carries extra
secondaries. -/
theorem C7_dentry_count_on_match (getDe : Nat → Option Dentry) (nameUnits : List Nat)
    (cnt : Nat) (hlen : 1 ≤ nameUnits.length)
    (hmatch : filter_lookup_file getDe nameUnits = some cnt) :
    cnt = 2 + DIV_ROUND_UP nameUnits.length ENTRY_NAME_MAX := by
  rw [filter_lookup_file] at hmatch
  match h0 : getDe 0 with
  | none => rw [h0] at hmatch; cases hmatch
  | some (.stream _) => rw [h0] at hmatch; cases hmatch
  | some (.name _) => rw [h0] at hmatch; cases hmatch
  | some (.raw _) => rw [h0] at hmatch; cases hmatch
  | some (.file f) =>
    rw [h0] at hmatch
    match h1 : getDe 1 with
    | none => rw [h1] at hmatch; cases hmatch
    | some (.file _) => rw [h1] at hmatch; cases hmatch
    | some (.name _) => rw [h1] at hmatch; cases hmatch
    | some (.raw _) => rw [h1] at hmatch; cases hmatch
    | some (.stream s) =>
      rw [h1] at hmatch
      simp only at hmatch
      split at hmatch
      · cases hmatch
      · next hguard =>
        push_neg at hguard
        have hinv : 2 + DIV_ROUND_UP nameUnits.length ENTRY_NAME_MAX
            ≤ f.num_ext % 256 + 1 := by
          rw [DIV_ROUND_UP]
          omega
        have := flfLoopF_count getDe (f.num_ext % 256) nameUnits.length 2 nameUnits
          (le_refl _) (by rw [← List.length_pos] at *; omega) hinv cnt hmatch
        omega

/-- Witness for C7's amended count at a 16-unit name spanning two name
dentries and the minimal `num_ext = 3`. -/
theorem C7_dentry_count_on_match_witness :
    1 ≤ (List.replicate 16 97 : List Nat).length ∧
    filter_lookup_file
        (fun i => ([.file { num_ext := 3 }, .stream {},
          .name (List.replicate 15 97), .name (97 :: List.replicate 14 0)] :
            List Dentry).get? i)
        (List.replicate 16 97) = some 4 ∧
    4 = 2 + DIV_ROUND_UP (List.replicate 16 97 : List Nat).length ENTRY_NAME_MAX :=
  ⟨by decide, by decide,
    C7_dentry_count_on_match
      (fun i => ([.file { num_ext := 3 }, .stream {},
        .name (List.replicate 15 97), .name (97 :: List.replicate 14 0)] :
          List Dentry).get? i)
      (List.replicate 16 97) 4 (by decide) (by decide)⟩

/-- Counterexample to C7 as stated: a fully matching set whose `num_ext` is 3
(one extra secondary beyond the single name dentry the 15-unit target needs)
gets `*dentry_count = 3`, not `num_ext + 1 = 4`: the loop exits as soon as
the name is consumed. -/
theorem C7_dentry_count_counterexample :
    filter_lookup_file
        (fun i => ([.file { num_ext := 3 }, .stream {},
          .name (List.replicate 15 97), .name (List.replicate 15 0)] :
            List Dentry).get? i)
        (List.replicate 15 97) = some 3 ∧
    (3 : Nat) ≠ 3 + 1 := by
  decide

/-! ## C8: `exfat_lookup_dentry_set`'s not-found path (lookup.c:37)

The directory's entry stream is given by its entry count `tlen` and the type
byte `ty p` of the entry at position `p` (in file-offset order — the scan
inspects nothing else about an entry), with the iterator's device offset of
entry `p` the abstract `offs p`; the iterator itself (de_iter.c is not among
the sources) is modelled from the spec: a linear window over the stream that
reports EOF past its end.  The installed predicate is abstracted by its
verdict `fr p` (0 match, positive no-match, negative error) and the
`*dentry_count` it leaves, `fc p`. -/

/-- `EXFAT_LAST` (type byte 0x00). -/
def EXFAT_LAST : Nat := 0

/-- Modelled from the spec: `IS_EXFAT_DELETED` of the missing
`exfat_ondisk.h` — a deleted entry's type byte has the high bit clear
("Deleted (0x05/0x41/...: high bit variations)"). -/
def IS_EXFAT_DELETED (t : Nat) : Bool := decide (t < 128)

/-- The scan's "free" test (lookup.c:95): Last or Deleted. -/
def isFreeType (t : Nat) : Bool := decide (t = EXFAT_LAST) || IS_EXFAT_DELETED t

/-- The scan loop of `exfat_lookup_dentry_set`, returning
`(retval, out.dentry_d_offset)`.  `fuel` bounds the iteration count so the
recursion is structural; every iteration advances by at least one entry when
`fc ≥ 1`, so `tlen` iterations always suffice (the fuel-exhausted base case
then only fires past the end of the stream, where it coincides with the EOF
exit). -/
def lds_loopF (tlen : Nat) (ty : Nat → Nat) (ftype : Nat) (fr : Nat → Int)
    (fc : Nat → Nat) (offs : Nat → Int) : Nat → Nat → Int → Bool → Int × Int
  | 0, _, free_offset, last_is_free =>
    if last_is_free then (CEOF, free_offset) else (CEOF, CEOF)
  | f + 1, pos, free_offset, last_is_free =>
    if pos < tlen then
      if ty pos = ftype then
        if fr pos = 0 then (0, offs pos)
        else if fr pos < 0 then (fr pos, CEOF)
        else lds_loopF tlen ty ftype fr fc offs f (pos + fc pos) free_offset false
      else if ty pos = EXFAT_LAST ∨ IS_EXFAT_DELETED (ty pos) = true then
        if ¬last_is_free then lds_loopF tlen ty ftype fr fc offs f (pos + 1) (offs pos) true
        else lds_loopF tlen ty ftype fr fc offs f (pos + 1) free_offset true
      else lds_loopF tlen ty ftype fr fc offs f (pos + 1) free_offset false
    else if last_is_free then (CEOF, free_offset) else (CEOF, CEOF)

/-- `exfat_lookup_dentry_set`'s scan from the directory's first entry, with
`free_offset = 0` and `last_is_free = false` as in the C locals. -/
def exfat_lookup_dentry_set_scan (tlen : Nat) (ty : Nat → Nat) (ftype : Nat)
    (fr : Nat → Int) (fc : Nat → Nat) (offs : Nat → Int) : Int × Int :=
  lds_loopF tlen ty ftype fr fc offs tlen 0 0 false

/-- The entries the scan examines, in order (same stepping as the loop). -/
def lds_visitedF (tlen : Nat) (ty : Nat → Nat) (ftype : Nat) (fr : Nat → Int)
    (fc : Nat → Nat) : Nat → Nat → List Nat
  | 0, _ => []
  | f + 1, pos =>
    if pos < tlen then
      if ty pos = ftype then
        if fr pos = 0 then [pos]
        else if fr pos < 0 then [pos]
        else pos :: lds_visitedF tlen ty ftype fr fc f (pos + fc pos)
      else pos :: lds_visitedF tlen ty ftype fr fc f (pos + 1)
    else []

/-- The imperative `free_offset`/`last_is_free` tracking, as a function of
the visited entries. -/
def trailSpec (free : Nat → Bool) (offs : Nat → Int) : List Nat → Int → Bool → Int
  | [], fo, lif => if lif then fo else CEOF
  | p :: rest, fo, lif =>
    if free p then
      if ¬lif then trailSpec free offs rest (offs p) true
      else trailSpec free offs rest fo true
    else trailSpec free offs rest fo false

/-- The trailing-run characterization of `trailSpec`: the offset of the first
entry of the maximal all-free suffix — except that a run covering every
visited entry extends the run the scan was already inside (`lif`), whose
recorded start `fo` wins. -/
lemma trailSpec_eq_takeWhile (free : Nat → Bool) (offs : Nat → Int) :
    ∀ (vp : List Nat) (fo : Int) (lif : Bool),
      trailSpec free offs vp fo lif
        = if (vp.reverse.takeWhile free).length = vp.length then
            (if lif then fo
             else match (vp.reverse.takeWhile free).getLast? with
                  | some j => offs j
                  | none => CEOF)
          else
            match (vp.reverse.takeWhile free).getLast? with
            | some j => offs j
            | none => CEOF := by
  intro vp
  induction vp with
  | nil => intro fo lif; simp [trailSpec]
  | cons p rest ih =>
    intro fo lif
    have hrev : (p :: rest).reverse = rest.reverse ++ [p] := by simp
    have hlrev : rest.reverse.length = rest.length := List.length_reverse rest
    have hle := (rest.reverse.takeWhile_prefix free).length_le
    rw [trailSpec, hrev, List.takeWhile_append]
    by_cases hfull : (rest.reverse.takeWhile free).length = rest.reverse.length
    · have hfl : (List.takeWhile free rest.reverse).length = rest.length := by omega
      have heq : List.takeWhile free rest.reverse = rest.reverse :=
        (rest.reverse.takeWhile_prefix free).eq_of_length hfull
      rw [if_pos hfull]
      cases hfp : free p <;> cases lif <;>
        simp [ih, hfl, heq, List.takeWhile, hfp, List.getLast?_concat]
    · rw [if_neg hfull]
      have hnfl : ¬(List.takeWhile free rest.reverse).length = rest.length := by omega
      have hl3 : ¬(rest.reverse.takeWhile free).length = (p :: rest).length := by
        simp only [List.length_cons]
        omega
      rw [if_neg hl3]
      cases hfp : free p <;> cases lif <;> simp [ih, hnfl, hfp]

lemma isFreeType_of_large (t : Nat) (h : 128 ≤ t) : isFreeType t = false := by
  simp only [isFreeType, EXFAT_LAST, IS_EXFAT_DELETED, Bool.or_eq_false_iff,
    decide_eq_false_iff_not]
  omega

lemma lds_visited_head (tlen : Nat) (ty : Nat → Nat) (ftype : Nat) (fr : Nat → Int)
    (fc : Nat → Nat) (f pos : Nat) (hpos : pos < tlen) :
    pos ∈ lds_visitedF tlen ty ftype fr fc (f + 1) pos := by
  rw [lds_visitedF]
  simp only [if_pos hpos]
  split_ifs <;> simp

lemma lds_loop_eq_trailSpec (tlen : Nat) (ty : Nat → Nat) (ftype : Nat)
    (fr : Nat → Int) (fc : Nat → Nat) (offs : Nat → Int) (hft : 128 ≤ ftype) :
    ∀ (n pos : Nat) (fo : Int) (lif : Bool), tlen - pos ≤ n →
      (∀ p ∈ lds_visitedF tlen ty ftype fr fc n pos, ty p = ftype →
        0 < fr p ∧ 1 ≤ fc p) →
      lds_loopF tlen ty ftype fr fc offs n pos fo lif
        = (CEOF, trailSpec (fun p => isFreeType (ty p)) offs
            (lds_visitedF tlen ty ftype fr fc n pos) fo lif) := by
  intro n
  induction n with
  | zero =>
    intro pos fo lif _ _
    cases lif <;> simp [lds_loopF, lds_visitedF, trailSpec]
  | succ f ih =>
    intro pos fo lif hn hvis
    by_cases hpos : pos < tlen
    · by_cases hty : ty pos = ftype
      · obtain ⟨hfr, hfc⟩ := hvis pos (lds_visited_head tlen ty ftype fr fc f pos hpos) hty
        have hfr0 : ¬(fr pos = 0) := by omega
        have hfrneg : ¬(fr pos < 0) := by omega
        have hv : lds_visitedF tlen ty ftype fr fc (f + 1) pos
            = pos :: lds_visitedF tlen ty ftype fr fc f (pos + fc pos) := by
          rw [lds_visitedF, if_pos hpos, if_pos hty, if_neg hfr0, if_neg hfrneg]
        rw [hv] at hvis
        have hih := ih (pos + fc pos) fo false (by omega)
          (fun p hp ht => hvis p (List.mem_cons_of_mem _ hp) ht)
        rw [lds_loopF, if_pos hpos, if_pos hty, if_neg hfr0, if_neg hfrneg, hv,
          trailSpec, hty, isFreeType_of_large ftype hft]
        simp [hih]
      · have hv : lds_visitedF tlen ty ftype fr fc (f + 1) pos
            = pos :: lds_visitedF tlen ty ftype fr fc f (pos + 1) := by
          rw [lds_visitedF, if_pos hpos, if_neg hty]
        rw [hv] at hvis
        have hvis' : ∀ p ∈ lds_visitedF tlen ty ftype fr fc f (pos + 1),
            ty p = ftype → 0 < fr p ∧ 1 ≤ fc p :=
          fun p hp ht => hvis p (List.mem_cons_of_mem _ hp) ht
        rw [lds_loopF, if_pos hpos, if_neg hty, hv, trailSpec]
        by_cases hfree : ty pos = EXFAT_LAST ∨ IS_EXFAT_DELETED (ty pos) = true
        · have hfb : isFreeType (ty pos) = true := by
            simp only [isFreeType, Bool.or_eq_true, decide_eq_true_eq]
            rcases hfree with h | h
            · exact Or.inl h
            · exact Or.inr h
          rw [if_pos hfree]
          cases lif with
          | false =>
            have hih := ih (pos + 1) (offs pos) true (by omega) hvis'
            simp [hfb, hih]
          | true =>
            have hih := ih (pos + 1) fo true (by omega) hvis'
            simp [hfb, hih]
        · have hfb : isFreeType (ty pos) = false := by
            simp only [isFreeType, Bool.or_eq_false_iff, decide_eq_false_iff_not]
            push_neg at hfree
            exact ⟨hfree.1, by simpa using hfree.2⟩
          have hih := ih (pos + 1) fo false (by omega) hvis'
          rw [if_neg hfree]
          simp [hfb, hih]
    · rw [lds_loopF, lds_visitedF, if_neg hpos, if_neg hpos]
      cases lif <;> simp [trailSpec]

/-- C8: whenever the scan of `exfat_lookup_dentry_set` finds no matching
dentry set (every visited entry of the filter's type is a non-match, and the
predicate neither errors nor stalls), the function returns EOF and
`out.dentry_d_offset` is the device offset of the first entry of the trailing
run of free (Last or Deleted) entries when the scan ended inside such a run,
and the EOF sentinel otherwise; a run's start is recorded only when the
previous entry was not free (`128 ≤ ftype` holds for every type looked up:
0x81..0x85). -/
theorem C8_lookup_eof_free_hint (tlen : Nat) (ty : Nat → Nat) (ftype : Nat)
    (fr : Nat → Int) (fc : Nat → Nat) (offs : Nat → Int) (hft : 128 ≤ ftype)
    (hvis : ∀ p ∈ lds_visitedF tlen ty ftype fr fc tlen 0, ty p = ftype →
      0 < fr p ∧ 1 ≤ fc p) :
    exfat_lookup_dentry_set_scan tlen ty ftype fr fc offs
      = (CEOF,
         match ((lds_visitedF tlen ty ftype fr fc tlen 0).reverse.takeWhile
             (fun p => isFreeType (ty p))).getLast? with
         | some j => offs j
         | none => CEOF) := by
  rw [exfat_lookup_dentry_set_scan,
    lds_loop_eq_trailSpec tlen ty ftype fr fc offs hft tlen 0 0 false (by omega) hvis,
    trailSpec_eq_takeWhile]
  congr 1
  split
  · simp
  · rfl

/-- Witness for C8: a four-entry directory `[0x85, 0x83, 0x05, 0x00]`
searched for type 0x85 with an always-refusing predicate: the trailing free
run starts at entry 2, whose device offset is returned with EOF. -/
theorem C8_lookup_eof_free_hint_witness :
    ((128 : Nat) ≤ 133 ∧
      (∀ p ∈ lds_visitedF 4 (fun p => [133, 131, 5, 0].getD p 0) 133 (fun _ => 1)
          (fun _ => 1) 4 0,
        (fun p => [133, 131, 5, 0].getD p 0) p = 133 →
          (0 : Int) < 1 ∧ (1 : Nat) ≤ 1)) ∧
    exfat_lookup_dentry_set_scan 4 (fun p => [133, 131, 5, 0].getD p 0) 133
        (fun _ => 1) (fun _ => 1) (fun p => 100 + (p : Int)) = (CEOF, 102) :=
  ⟨⟨by decide, by decide⟩, by
    rw [C8_lookup_eof_free_hint 4 (fun p => [133, 131, 5, 0].getD p 0) 133
      (fun _ => 1) (fun _ => 1) (fun p => 100 + (p : Int)) (by decide) (by decide)]
    decide⟩

/-! ## C4: `find_empty_cluster` and `exfat_alloc_cluster` (create.c:195, 263)

All fuel arguments below only bound iteration counts so the recursions are
structural; the stated fuel always suffices because each iteration strictly
advances the scanned cluster index. -/

end ExfatTools
